import Mathlib

/-!
Shallow embedding of `src/main.ts` (QR-driven AR viewer): the marker-tracking
and placement state machine. Pixel coordinates and 3D quantities are modelled
as rationals, `Date.now()` timestamps as integers (milliseconds). The mutable
module globals of the source become fields of `AppState`; each event handler of
the source becomes a state-transition function. Calls into the renderer are
recorded in the state (`loadRequests` logs each `loader.load` call,
`sceneHasModel` mirrors scene membership of the held model, `errorLog` records
`console.error` reports relevant to the claims).
-/

/-- Constant `QR_TIMEOUT = 1000` (ms) from the source. -/
def QR_TIMEOUT : ℤ := 1000

/-- Constant `ROTATION_SPEED = 0.01` from the source. -/
def ROTATION_SPEED : ℚ := 1 / 100

/-- Constant `ROTATION_DAMPING = 0.1` from the source. -/
def ROTATION_DAMPING : ℚ := 1 / 10

/-- A 2D result point, as returned by `result.getResultPoints()` (`getX`/`getY`). -/
structure Point where
  x : ℚ
  y : ℚ
deriving DecidableEq, Repr

/-- The retained marker observation `lastQRLocation` (center + extents, pixel units). -/
structure QRLocation where
  x : ℚ
  y : ℚ
  width : ℚ
  height : ℚ
deriving DecidableEq, Repr

/-- The held 3D asset (`model`): the transform the core sets on the loaded object. -/
structure LoadedModel where
  position : ℚ × ℚ × ℚ
  scale : ℚ × ℚ × ℚ
  rotation : ℚ × ℚ
deriving DecidableEq, Repr

/-- The module-level mutable state of `main.ts`, plus logs of renderer calls. -/
structure AppState where
  model : Option LoadedModel
  lastQRLocation : Option QRLocation
  lastQRTimestamp : ℤ
  isDragging : Bool
  previousMousePosition : ℚ × ℚ
  targetRotation : ℚ × ℚ
  currentRotation : ℚ × ℚ
  sceneHasModel : Bool
  loadRequests : List String
  errorLog : List String
deriving DecidableEq, Repr

/-- The initial values of the module globals (`model = null`, `lastQRTimestamp = 0`, …). -/
def initState : AppState :=
  { model := none
    lastQRLocation := none
    lastQRTimestamp := 0
    isDragging := false
    previousMousePosition := (0, 0)
    targetRotation := (0, 0)
    currentRotation := (0, 0)
    sceneHasModel := false
    loadRequests := []
    errorLog := [] }

/-- Minimum of a list of rationals, as `Math.min(...xs)`; the `[]` case is
unreachable at the call site, which is guarded by a length check. -/
def listMin : List ℚ → ℚ
  | [] => 0
  | x :: xs => xs.foldl min x

/-- Maximum of a list of rationals, as `Math.max(...xs)`. -/
def listMax : List ℚ → ℚ
  | [] => 0
  | x :: xs => xs.foldl max x

/-- `processQRPoints(resultPoints)` from the source: with at least 3 points it
overwrites `lastQRLocation` with the bounding-box center and extents; otherwise
it leaves `lastQRLocation` untouched. Returns the new `lastQRLocation`. -/
def processQRPoints (resultPoints : Option (List Point))
    (lastQRLocation : Option QRLocation) : Option QRLocation :=
  match resultPoints with
  | some pts =>
    if 3 ≤ pts.length then
      let minX := listMin (pts.map Point.x)
      let maxX := listMax (pts.map Point.x)
      let minY := listMin (pts.map Point.y)
      let maxY := listMax (pts.map Point.y)
      some { x := (minX + maxX) / 2, y := (minY + maxY) / 2,
             width := maxX - minX, height := maxY - minY }
    else lastQRLocation
  | none => lastQRLocation

/-- `loadModel(url)` from the source. The platform URL parser (`new URL(url)`
throwing or not) is abstracted as the predicate `isValidURL`. An issued
`loader.load(url, …)` call is appended to `loadRequests`; a rejected URL
appends the `console.error` message to `errorLog` and returns early. -/
def loadModel (isValidURL : String → Bool) (url : String) (s : AppState) : AppState :=
  let s1 := if s.model.isSome then { s with model := none, sceneHasModel := false } else s
  if isValidURL url then
    { s1 with loadRequests := s1.loadRequests ++ [url] }
  else
    { s1 with errorLog := s1.errorLog ++ ["URL invalida: " ++ url] }

/-- The detection callback passed to `decodeFromVideoDevice` in
`startQRScanner`, on a successful result: refresh `lastQRTimestamp`, reduce the
points, and call `loadModel` only when `model` is null. (`showResult` is pure
DOM output and not modelled.) -/
def onDetection (isValidURL : String → Bool) (now : ℤ) (qrData : String)
    (points : Option (List Point)) (s : AppState) : AppState :=
  let s1 := { s with lastQRTimestamp := now }
  let s2 := { s1 with lastQRLocation := processQRPoints points s1.lastQRLocation }
  if s2.model.isNone then loadModel isValidURL qrData s2 else s2

/-- `maxDim = Math.max(size.x, size.y, size.z)` from `loadModel`'s success callback. -/
def maxDim3 (size : ℚ × ℚ × ℚ) : ℚ :=
  max size.1 (max size.2.1 size.2.2)

/-- The uniform scale normalization in `loadModel`'s success callback:
`maxDim = max(size.x, size.y, size.z); if (maxDim > 0) scale *= 4.0 / maxDim`. -/
def gltfNormalize (size : ℚ × ℚ × ℚ) (scale : ℚ × ℚ × ℚ) : ℚ × ℚ × ℚ :=
  if 0 < maxDim3 size then
    (scale.1 * (4 / maxDim3 size), scale.2.1 * (4 / maxDim3 size),
     scale.2.2 * (4 / maxDim3 size))
  else scale

/-- The object's bounding-box dimensions after the uniform factor applied by
`gltfNormalize` (a uniform scale multiplies every bounding dimension by the
same factor). -/
def sizeAfterNormalize (size : ℚ × ℚ × ℚ) : ℚ × ℚ × ℚ :=
  if 0 < maxDim3 size then
    (size.1 * (4 / maxDim3 size), size.2.1 * (4 / maxDim3 size),
     size.2.2 * (4 / maxDim3 size))
  else size

/-- The GLTF load success callback: store the loaded scene as `model`, recenter
it (`position.sub(center)` from the initial origin), and normalize its scale
from unit scale. The model is not yet attached to the scene. -/
def onLoadSuccess (center size : ℚ × ℚ × ℚ) (s : AppState) : AppState :=
  { s with model := some {
      position := (0 - center.1, 0 - center.2.1, 0 - center.2.2)
      scale := gltfNormalize size (1, 1, 1)
      rotation := (0, 0) } }

/-- The visibility query `Date.now() - lastQRTimestamp < QR_TIMEOUT` used by
`animate` and the pointer-down handlers. -/
def qrIsVisible (now lastQRTimestamp : ℤ) : Bool :=
  now - lastQRTimestamp < QR_TIMEOUT

/-- `updateModelPosition()` from the source: map `lastQRLocation` through the
normalized-device transform to a world position and uniform scale, and attach
the model to the scene when it has no parent yet. `vw, vh` are the resolved
video dimensions, `iw, ih` the window inner dimensions. -/
def updateModelPosition (vw vh iw ih : ℚ) (s : AppState) : AppState :=
  match s.model, s.lastQRLocation with
  | some m, some loc =>
    let normalizedX := (loc.x / vw) * 2 - 1
    let normalizedY := -((loc.y / vh) * 2 - 1)
    let aspectRatio := iw / ih
    let qrSizeInViewport := min loc.width loc.height / vw
    let scaleFactor := qrSizeInViewport * 10
    { s with
        model := some { m with
          position := (normalizedX * 3 * aspectRatio, normalizedY * 3, -3)
          scale := (scaleFactor, scaleFactor, scaleFactor) }
        sceneHasModel := true }
  | _, _ => s

/-- One exponential-damping step `current += (target - current) * ROTATION_DAMPING`. -/
def dampTick (target current : ℚ) : ℚ :=
  current + (target - current) * ROTATION_DAMPING

/-- Iterated damping steps with the target held fixed. -/
def dampIter (target current : ℚ) : ℕ → ℚ
  | 0 => current
  | n + 1 => dampTick target (dampIter target current n)

/-- One `animate()` tick (minus the `requestAnimationFrame` re-arm and the
final `renderer.render` call, which carry no modelled state): drop the model
when the QR is no longer visible; otherwise, while visible with a model,
update its placement and smooth the rotation. -/
def animate (now : ℤ) (vw vh iw ih : ℚ) (s : AppState) : AppState :=
  let vis := qrIsVisible now s.lastQRTimestamp
  let s1 := if !vis && s.model.isSome then { s with model := none, sceneHasModel := false } else s
  if s1.model.isSome && vis then
    let s2 := updateModelPosition vw vh iw ih s1
    let cx := dampTick s2.targetRotation.1 s2.currentRotation.1
    let cy := dampTick s2.targetRotation.2 s2.currentRotation.2
    { s2 with
        currentRotation := (cx, cy)
        model := s2.model.map (fun m => { m with rotation := (cx, cy) }) }
  else s1

/-- `onMouseDown` from the source: begin a drag only when a model is held and
the marker was seen within the timeout window. -/
def onMouseDown (now : ℤ) (clientX clientY : ℚ) (s : AppState) : AppState :=
  if s.model.isSome && decide (now - s.lastQRTimestamp < QR_TIMEOUT) then
    { s with isDragging := true, previousMousePosition := (clientX, clientY) }
  else s

/-- `onMouseMove` from the source: while dragging with a model held,
accumulate pixel deltas into the target rotation. -/
def onMouseMove (clientX clientY : ℚ) (s : AppState) : AppState :=
  if s.isDragging && s.model.isSome then
    let dx := clientX - s.previousMousePosition.1
    let dy := clientY - s.previousMousePosition.2
    { s with
        targetRotation := (s.targetRotation.1 + dy * ROTATION_SPEED,
                           s.targetRotation.2 + dx * ROTATION_SPEED)
        previousMousePosition := (clientX, clientY) }
  else s

/-- `onMouseUp` (also bound to `touchend`/`mouseleave`): end the drag. -/
def onMouseUp (s : AppState) : AppState :=
  { s with isDragging := false }

/-- A sequence of pointer-move events applied in order. -/
def applyMoves : List (ℚ × ℚ) → AppState → AppState
  | [], s => s
  | (cx, cy) :: rest, s => applyMoves rest (onMouseMove cx cy s)

/-! Helper lemmas about `listMin` / `listMax`. -/

theorem foldl_min_le_init (l : List ℚ) (a : ℚ) : l.foldl min a ≤ a := by
  induction l generalizing a with
  | nil => simp
  | cons b l ih => exact le_trans (ih (min a b)) (min_le_left a b)

theorem foldl_min_le_of_mem (l : List ℚ) (a y : ℚ) (hy : y ∈ l) : l.foldl min a ≤ y := by
  induction l generalizing a with
  | nil => cases hy
  | cons b l ih =>
    rcases List.mem_cons.mp hy with h | h
    · subst h
      exact le_trans (foldl_min_le_init l (min a y)) (min_le_right a y)
    · exact ih (min a b) h

theorem foldl_min_eq_or_mem (l : List ℚ) (a : ℚ) : l.foldl min a = a ∨ l.foldl min a ∈ l := by
  induction l generalizing a with
  | nil => exact Or.inl rfl
  | cons b l ih =>
    rcases ih (min a b) with h | h
    · rcases min_choice a b with h2 | h2
      · exact Or.inl (by rw [List.foldl_cons, h, h2])
      · exact Or.inr (by rw [List.foldl_cons, h, h2]; exact List.mem_cons_self b l)
    · exact Or.inr (List.mem_cons_of_mem b h)

theorem foldl_max_init_le (l : List ℚ) (a : ℚ) : a ≤ l.foldl max a := by
  induction l generalizing a with
  | nil => simp
  | cons b l ih => exact le_trans (le_max_left a b) (ih (max a b))

theorem foldl_max_le_of_mem (l : List ℚ) (a y : ℚ) (hy : y ∈ l) : y ≤ l.foldl max a := by
  induction l generalizing a with
  | nil => cases hy
  | cons b l ih =>
    rcases List.mem_cons.mp hy with h | h
    · subst h
      exact le_trans (le_max_right a y) (foldl_max_init_le l (max a y))
    · exact ih (max a b) h

theorem foldl_max_eq_or_mem (l : List ℚ) (a : ℚ) : l.foldl max a = a ∨ l.foldl max a ∈ l := by
  induction l generalizing a with
  | nil => exact Or.inl rfl
  | cons b l ih =>
    rcases ih (max a b) with h | h
    · rcases max_choice a b with h2 | h2
      · exact Or.inl (by rw [List.foldl_cons, h, h2])
      · exact Or.inr (by rw [List.foldl_cons, h, h2]; exact List.mem_cons_self b l)
    · exact Or.inr (List.mem_cons_of_mem b h)

theorem listMin_mem (l : List ℚ) (hl : l ≠ []) : listMin l ∈ l := by
  cases l with
  | nil => exact absurd rfl hl
  | cons x xs =>
    rcases foldl_min_eq_or_mem xs x with h | h
    · rw [listMin, h]; exact List.mem_cons_self x xs
    · exact List.mem_cons_of_mem x (by rw [listMin]; exact h)

theorem listMin_le (l : List ℚ) (y : ℚ) (hy : y ∈ l) : listMin l ≤ y := by
  cases l with
  | nil => cases hy
  | cons x xs =>
    rcases List.mem_cons.mp hy with h | h
    · rw [listMin, h]; exact foldl_min_le_init xs x
    · rw [listMin]; exact foldl_min_le_of_mem xs x y h

theorem listMax_mem (l : List ℚ) (hl : l ≠ []) : listMax l ∈ l := by
  cases l with
  | nil => exact absurd rfl hl
  | cons x xs =>
    rcases foldl_max_eq_or_mem xs x with h | h
    · rw [listMax, h]; exact List.mem_cons_self x xs
    · exact List.mem_cons_of_mem x (by rw [listMax]; exact h)

theorem le_listMax (l : List ℚ) (y : ℚ) (hy : y ∈ l) : y ≤ listMax l := by
  cases l with
  | nil => cases hy
  | cons x xs =>
    rcases List.mem_cons.mp hy with h | h
    · rw [listMax, h]; exact foldl_max_init_le xs x
    · rw [listMax]; exact foldl_max_le_of_mem xs x y h

/-! Field-preservation lemmas for the transition functions. -/

theorem loadModel_fields (v : String → Bool) (url : String) (s : AppState) :
    (loadModel v url s).lastQRTimestamp = s.lastQRTimestamp
    ∧ (loadModel v url s).lastQRLocation = s.lastQRLocation
    ∧ (loadModel v url s).targetRotation = s.targetRotation
    ∧ (loadModel v url s).currentRotation = s.currentRotation
    ∧ (loadModel v url s).isDragging = s.isDragging := by
  unfold loadModel
  cases hm : s.model.isSome <;> cases hv : v url <;> simp [hm, hv]

theorem updateModelPosition_fields (vw vh iw ih : ℚ) (s : AppState) :
    (updateModelPosition vw vh iw ih s).lastQRTimestamp = s.lastQRTimestamp
    ∧ (updateModelPosition vw vh iw ih s).lastQRLocation = s.lastQRLocation
    ∧ (updateModelPosition vw vh iw ih s).targetRotation = s.targetRotation
    ∧ (updateModelPosition vw vh iw ih s).currentRotation = s.currentRotation
    ∧ (updateModelPosition vw vh iw ih s).loadRequests = s.loadRequests
    ∧ (updateModelPosition vw vh iw ih s).model.isSome = s.model.isSome := by
  unfold updateModelPosition
  rcases hm : s.model with _ | m <;> rcases hl : s.lastQRLocation with _ | loc <;> simp [hm, hl]

theorem animate_fields (now : ℤ) (vw vh iw ih : ℚ) (s : AppState) :
    (animate now vw vh iw ih s).lastQRTimestamp = s.lastQRTimestamp
    ∧ (animate now vw vh iw ih s).lastQRLocation = s.lastQRLocation
    ∧ (animate now vw vh iw ih s).targetRotation = s.targetRotation
    ∧ (animate now vw vh iw ih s).loadRequests = s.loadRequests := by
  unfold animate
  rcases hv : qrIsVisible now s.lastQRTimestamp <;> rcases hm : s.model with _ | m <;>
    simp [hv, hm, updateModelPosition_fields]

theorem onDetection_fields (v : String → Bool) (now : ℤ) (d : String)
    (p : Option (List Point)) (s : AppState) :
    (onDetection v now d p s).lastQRTimestamp = now
    ∧ (onDetection v now d p s).lastQRLocation = processQRPoints p s.lastQRLocation
    ∧ (onDetection v now d p s).targetRotation = s.targetRotation
    ∧ (onDetection v now d p s).currentRotation = s.currentRotation := by
  unfold onDetection
  cases hm : s.model <;> simp [hm, loadModel_fields]

theorem loadModel_invalid (v : String → Bool) (url : String) (s : AppState)
    (hinv : v url = false) :
    (loadModel v url s).loadRequests = s.loadRequests
    ∧ (loadModel v url s).model = none
    ∧ (loadModel v url s).errorLog = s.errorLog ++ ["URL invalida: " ++ url] := by
  unfold loadModel
  cases hm : s.model <;> simp [hm, hinv]

/-- A sample held model used to instantiate theorems at concrete states. -/
def exampleModel : LoadedModel :=
  { position := (0, 0, 0), scale := (1, 1, 1), rotation := (0, 0) }

/-- A sample state holding a model and a retained observation. -/
def exampleState : AppState :=
  { initState with
      model := some exampleModel
      lastQRLocation := some { x := 320, y := 240, width := 64, height := 64 } }

/-- C2: a detection at time `t0` sets `lastQRTimestamp = t0`; for any later
query time `t`, the visibility query returns true exactly when `t - t0 < 1000`
(true on `[t0, t0 + 1000)`, false from `t0 + 1000` on); it is a pure function
of the query time and `lastQRTimestamp`, which the frame tick never mutates. -/
theorem isVisible_window (v : String → Bool) (d : String) (p : Option (List Point))
    (s : AppState) (t0 t : ℤ) (h : t0 ≤ t) :
    (onDetection v t0 d p s).lastQRTimestamp = t0
    ∧ (qrIsVisible t t0 = true ↔ t - t0 < 1000)
    ∧ (t < t0 + 1000 → qrIsVisible t t0 = true)
    ∧ (t0 + 1000 ≤ t → qrIsVisible t t0 = false)
    ∧ (∀ now vw vh iw ih, (animate now vw vh iw ih s).lastQRTimestamp = s.lastQRTimestamp) := by
  refine ⟨(onDetection_fields v t0 d p s).1, ?_, ?_, ?_, ?_⟩
  · simp [qrIsVisible, QR_TIMEOUT]
  · intro h2
    simp only [qrIsVisible, QR_TIMEOUT, decide_eq_true_eq]
    omega
  · intro h2
    simp only [qrIsVisible, QR_TIMEOUT, decide_eq_false_iff_not]
    omega
  · intro now vw vh iw ih
    exact (animate_fields now vw vh iw ih s).1

/-- Witness for C2 at `t0 = 5`, `t = 900` on the initial state. -/
theorem isVisible_window_witness :
    (onDetection (fun _ => true) 5 "http://m" none initState).lastQRTimestamp = 5
    ∧ (qrIsVisible 900 5 = true ↔ (900 : ℤ) - 5 < 1000) := by
  have h := isVisible_window (fun _ => true) "http://m" none initState 5 900 (by decide)
  exact ⟨h.1, h.2.1⟩

/-- C1 (amended): the load guard checks only whether a completed asset is held
(`model` non-null, set only by the load success callback); with a model held a
detection issues no load, and with `model = null` — including while a load is
still in flight — every detection whose payload parses as a URL issues a load
request. -/
theorem load_guard_model_slot (v : String → Bool) (now : ℤ) (d : String)
    (p : Option (List Point)) (s : AppState) :
    (s.model.isSome = true → (onDetection v now d p s).loadRequests = s.loadRequests)
    ∧ (s.model = none → v d = true →
        (onDetection v now d p s).loadRequests = s.loadRequests ++ [d]) := by
  constructor
  · intro hm
    obtain ⟨m, hm2⟩ := Option.isSome_iff_exists.mp hm
    unfold onDetection
    simp [hm2]
  · intro hm hv
    unfold onDetection
    simp [hm, loadModel, hv]

/-- Witness for C1 (amended) at concrete states with and without a held model. -/
theorem load_guard_model_slot_witness :
    (onDetection (fun _ => true) 0 "http://a" none exampleState).loadRequests
      = exampleState.loadRequests
    ∧ (onDetection (fun _ => true) 0 "http://a" none initState).loadRequests
      = initState.loadRequests ++ ["http://a"] := by
  exact ⟨(load_guard_model_slot (fun _ => true) 0 "http://a" none exampleState).1 rfl,
    (load_guard_model_slot (fun _ => true) 0 "http://a" none initState).2 rfl rfl⟩

/-- C1 counterexample: two detections with parseable payloads arriving before
any load resolves issue two load requests, one per payload — not exactly one
for the first payload, because `model` stays null until a load completes. -/
theorem two_detections_two_loads_cex :
    (onDetection (fun _ => true) 1 "http://b" none
      (onDetection (fun _ => true) 0 "http://a" none initState)).loadRequests
      = ["http://a", "http://b"] := by
  rfl

/-- C6: a payload rejected by the URL parser issues no load request, creates
no asset, reports the error, and leaves the system idle awaiting a later
detection. -/
theorem invalid_url_rejected (v : String → Bool) (url : String) (s : AppState)
    (hinv : v url = false) :
    (loadModel v url s).loadRequests = s.loadRequests
    ∧ (loadModel v url s).model = none
    ∧ (loadModel v url s).errorLog = s.errorLog ++ ["URL invalida: " ++ url]
    ∧ (∀ now p, s.model = none →
        (onDetection v now url p s).loadRequests = s.loadRequests
        ∧ (onDetection v now url p s).model = none) := by
  refine ⟨(loadModel_invalid v url s hinv).1, (loadModel_invalid v url s hinv).2.1,
    (loadModel_invalid v url s hinv).2.2, ?_⟩
  intro now p hm
  unfold onDetection
  simp only [hm, Option.isNone_none, if_pos]
  constructor
  · exact (loadModel_invalid v url _ hinv).1
  · exact (loadModel_invalid v url _ hinv).2.1

/-- Witness for C6: the payload `notaurl` is rejected by a parser that refuses
it; no load request is issued and no model is created. -/
theorem invalid_url_rejected_witness :
    (loadModel (fun _ => false) "notaurl" initState).loadRequests = initState.loadRequests
    ∧ (loadModel (fun _ => false) "notaurl" initState).model = none := by
  have h := invalid_url_rejected (fun _ => false) "notaurl" initState rfl
  exact ⟨h.1, h.2.1⟩

theorem onDetection_load (v : String → Bool) (now : ℤ) (d : String)
    (p : Option (List Point)) (s : AppState) (hm : s.model = none) (hv : v d = true) :
    (onDetection v now d p s).loadRequests = s.loadRequests ++ [d] := by
  unfold onDetection
  simp [hm, loadModel, hv]

/-- C3: with fewer than 3 points (or none at all) the retained observation is
not updated; with at least 3 points it becomes the bounding-box center
`((minX+maxX)/2, (minY+maxY)/2)` and extents `(maxX-minX, maxY-minY)` over all
points; `[(0,0),(10,0),(0,10)]` yields center `(5,5)` and extents `10 × 10`,
and a 2-point input yields no update. -/
theorem processQRPoints_spec (pts : List Point) (loc : Option QRLocation) :
    (pts.length < 3 → processQRPoints (some pts) loc = loc)
    ∧ processQRPoints none loc = loc
    ∧ (3 ≤ pts.length →
        ∃ mnx mxx mny mxy,
          (∃ p ∈ pts, p.x = mnx) ∧ (∃ p ∈ pts, p.x = mxx)
          ∧ (∃ p ∈ pts, p.y = mny) ∧ (∃ p ∈ pts, p.y = mxy)
          ∧ (∀ p ∈ pts, mnx ≤ p.x ∧ p.x ≤ mxx ∧ mny ≤ p.y ∧ p.y ≤ mxy)
          ∧ processQRPoints (some pts) loc
              = some { x := (mnx + mxx) / 2, y := (mny + mxy) / 2,
                       width := mxx - mnx, height := mxy - mny })
    ∧ processQRPoints (some [⟨0, 0⟩, ⟨10, 0⟩, ⟨0, 10⟩]) loc
        = some { x := 5, y := 5, width := 10, height := 10 }
    ∧ processQRPoints (some [⟨0, 0⟩, ⟨10, 0⟩]) loc = loc := by
  refine ⟨?_, rfl, ?_, by norm_num [processQRPoints, listMin, listMax], ?_⟩
  · intro hlen
    simp only [processQRPoints]
    rw [if_neg (by omega)]
  · intro h3
    have hne : pts ≠ [] := by
      intro h
      rw [h] at h3
      simp at h3
    have hxne : pts.map Point.x ≠ [] := by simpa using hne
    have hyne : pts.map Point.y ≠ [] := by simpa using hne
    refine ⟨listMin (pts.map Point.x), listMax (pts.map Point.x),
      listMin (pts.map Point.y), listMax (pts.map Point.y),
      List.mem_map.mp (listMin_mem _ hxne), List.mem_map.mp (listMax_mem _ hxne),
      List.mem_map.mp (listMin_mem _ hyne), List.mem_map.mp (listMax_mem _ hyne),
      ?_, ?_⟩
    · intro p hp
      exact ⟨listMin_le _ _ (List.mem_map_of_mem Point.x hp),
        le_listMax _ _ (List.mem_map_of_mem Point.x hp),
        listMin_le _ _ (List.mem_map_of_mem Point.y hp),
        le_listMax _ _ (List.mem_map_of_mem Point.y hp)⟩
    · simp only [processQRPoints]
      rw [if_pos h3]
  · simp only [processQRPoints]
    rw [if_neg (by decide)]

/-- Witness for C3 at the spec's example inputs. -/
theorem processQRPoints_spec_witness :
    processQRPoints (some [⟨0, 0⟩, ⟨10, 0⟩]) none = none
    ∧ processQRPoints (some [⟨0, 0⟩, ⟨10, 0⟩, ⟨0, 10⟩]) none
        = some { x := 5, y := 5, width := 10, height := 10 } := by
  have h := processQRPoints_spec [⟨0, 0⟩, ⟨10, 0⟩] none
  have h2 := processQRPoints_spec [⟨0, 0⟩, ⟨10, 0⟩, ⟨0, 10⟩] none
  exact ⟨h.1 (by decide), h2.2.2.2.1⟩

/-- C4: with a model held and a retained observation, the placement mapper
sets position `(((cx/vw)*2-1)*3*aspect, -((cy/vh)*2-1)*3, -3)` and the uniform
scale `(min(w,h)/vw)*10` on all three axes, and attaches the model. -/
theorem updateModelPosition_spec (vw vh iw ih : ℚ) (s : AppState)
    (m : LoadedModel) (loc : QRLocation)
    (hm : s.model = some m) (hl : s.lastQRLocation = some loc) :
    (updateModelPosition vw vh iw ih s).model
      = some { m with
          position := (((loc.x / vw) * 2 - 1) * 3 * (iw / ih),
                       -((loc.y / vh) * 2 - 1) * 3, -3)
          scale := ((min loc.width loc.height / vw) * 10,
                    (min loc.width loc.height / vw) * 10,
                    (min loc.width loc.height / vw) * 10) }
    ∧ (updateModelPosition vw vh iw ih s).sceneHasModel = true := by
  unfold updateModelPosition
  rw [hm, hl]
  exact ⟨rfl, rfl⟩

/-- Witness for C4 at the spec's example: frame 640×480, unit aspect ratio,
center (320,240), size 64×64 gives position (0,0,-3) and scale 1. -/
theorem updateModelPosition_spec_witness :
    (updateModelPosition 640 480 1 1 exampleState).model
      = some { exampleModel with position := (0, 0, -3), scale := (1, 1, 1) }
    ∧ (updateModelPosition 640 480 1 1 exampleState).sceneHasModel = true := by
  have h := updateModelPosition_spec 640 480 1 1 exampleState exampleModel
    { x := 320, y := 240, width := 64, height := 64 } rfl rfl
  refine ⟨h.1.trans ?_, h.2⟩
  simp only [exampleModel, Option.some.injEq, LoadedModel.mk.injEq, Prod.mk.injEq]
  norm_num

/-- C5: on a frame tick where the marker is no longer visible while a model is
held, the model is removed from the scene and the held slot cleared, and the
very next detection with a parseable payload — even an identical one — issues
a fresh load request. -/
theorem tracking_loss_releases_model (now : ℤ) (vw vh iw ih : ℚ) (s : AppState)
    (hv : qrIsVisible now s.lastQRTimestamp = false) (hm : s.model.isSome = true) :
    (animate now vw vh iw ih s).model = none
    ∧ (animate now vw vh iw ih s).sceneHasModel = false
    ∧ (animate now vw vh iw ih s).loadRequests = s.loadRequests
    ∧ (∀ v d p now2, v d = true →
        (onDetection v now2 d p (animate now vw vh iw ih s)).loadRequests
          = s.loadRequests ++ [d]) := by
  have hstep : animate now vw vh iw ih s = { s with model := none, sceneHasModel := false } := by
    unfold animate
    simp [hv, hm]
  refine ⟨by rw [hstep], by rw [hstep], by rw [hstep], ?_⟩
  intro v d p now2 hvd
  rw [hstep]
  exact onDetection_load v now2 d p _ rfl hvd

/-- Witness for C5: a held model at a tick 2000 ms after the last sighting is
released, and the identical payload is re-requested on the next detection. -/
theorem tracking_loss_releases_model_witness :
    (animate 2000 640 480 1 1 exampleState).model = none
    ∧ (onDetection (fun _ => true) 2500 "http://a" none
        (animate 2000 640 480 1 1 exampleState)).loadRequests
      = exampleState.loadRequests ++ ["http://a"] := by
  have h := tracking_loss_releases_model 2000 640 480 1 1 exampleState (by decide) rfl
  exact ⟨h.1, h.2.2.2 (fun _ => true) "http://a" none 2500 rfl⟩

/-! Damping-distance helper lemmas for the rotation controller. -/

theorem dampTick_dist (t x : ℚ) : t - dampTick t x = (9 / 10) * (t - x) := by
  unfold dampTick ROTATION_DAMPING
  ring

theorem dampIter_dist (t c : ℚ) (n : ℕ) :
    t - dampIter t c n = (9 / 10) ^ n * (t - c) := by
  induction n with
  | zero => simp [dampIter]
  | succ n ih =>
    show t - dampTick t (dampIter t c n) = (9 / 10) ^ (n + 1) * (t - c)
    rw [dampTick_dist, ih]
    ring

/-- C7: one smoothing tick performs `current += (target - current) * 0.1` per
axis (so from target 1, current 0 a tick gives 0.1, and the visible frame tick
applies exactly this step to both axes); with the target fixed, the distance
after `n` ticks is `(9/10)^n` of the initial one, the per-axis sequence
approaches the target monotonically without overshooting, and it converges to
the target within any positive tolerance. -/
theorem rotation_smoothing_spec (t c : ℚ) :
    dampTick 1 0 = 1 / 10
    ∧ (∀ (vw vh iw ih : ℚ) (nz : ℤ) (s : AppState),
        qrIsVisible nz s.lastQRTimestamp = true → s.model.isSome = true →
        (animate nz vw vh iw ih s).currentRotation
          = (dampTick s.targetRotation.1 s.currentRotation.1,
             dampTick s.targetRotation.2 s.currentRotation.2))
    ∧ (∀ n, t - dampIter t c n = (9 / 10) ^ n * (t - c))
    ∧ (c ≤ t → ∀ n, dampIter t c n ≤ dampIter t c (n + 1) ∧ dampIter t c n ≤ t)
    ∧ (t ≤ c → ∀ n, dampIter t c (n + 1) ≤ dampIter t c n ∧ t ≤ dampIter t c n)
    ∧ (∀ ε : ℚ, 0 < ε → ∃ n, |t - dampIter t c n| < ε) := by
  refine ⟨by norm_num [dampTick, ROTATION_DAMPING], ?_, dampIter_dist t c, ?_, ?_, ?_⟩
  · intro vw vh iw ih nz s hv hm
    obtain ⟨m, hm2⟩ := Option.isSome_iff_exists.mp hm
    have hf := updateModelPosition_fields vw vh iw ih s
    simp [animate, hv, hm2, hf.2.2.1, hf.2.2.2.1]
  · intro hct n
    have h1 := dampIter_dist t c n
    have h2 := dampIter_dist t c (n + 1)
    have hp : (0 : ℚ) ≤ (9 / 10) ^ n := by positivity
    have hP : (0 : ℚ) ≤ (9 / 10) ^ n * (t - c) := mul_nonneg hp (by linarith)
    have hsucc : (9 / 10 : ℚ) ^ (n + 1) * (t - c) = ((9 / 10) ^ n * (t - c)) * (9 / 10) := by
      ring
    constructor
    · linarith [hsucc]
    · linarith
  · intro htc n
    have h1 := dampIter_dist t c n
    have h2 := dampIter_dist t c (n + 1)
    have hp : (0 : ℚ) ≤ (9 / 10) ^ n := by positivity
    have hP : (9 / 10 : ℚ) ^ n * (t - c) ≤ 0 :=
      mul_nonpos_of_nonneg_of_nonpos hp (by linarith)
    have hsucc : (9 / 10 : ℚ) ^ (n + 1) * (t - c) = ((9 / 10) ^ n * (t - c)) * (9 / 10) := by
      ring
    constructor
    · linarith [hsucc]
    · linarith
  · intro ε hε
    rcases eq_or_ne t c with he | he
    · refine ⟨0, ?_⟩
      subst he
      simp [dampIter, hε]
    · have hd : 0 < |t - c| := abs_pos.mpr (sub_ne_zero.mpr he)
      obtain ⟨n, hn⟩ := exists_pow_lt_of_lt_one (div_pos hε hd)
        (by norm_num : (9 / 10 : ℚ) < 1)
      refine ⟨n, ?_⟩
      rw [dampIter_dist t c n, abs_mul, abs_pow,
        abs_of_pos (by norm_num : (0 : ℚ) < 9 / 10)]
      calc (9 / 10 : ℚ) ^ n * |t - c| < ε / |t - c| * |t - c| :=
            mul_lt_mul_of_pos_right hn hd
        _ = ε := div_mul_cancel₀ ε (ne_of_gt hd)

/-- Witness for C7 at target 1, current 0, tolerance 1/2. -/
theorem rotation_smoothing_spec_witness :
    dampTick 1 0 = 1 / 10
    ∧ dampIter 1 0 1 ≤ 1
    ∧ (∃ n, |1 - dampIter 1 0 n| < 1 / 2) := by
  have h := rotation_smoothing_spec 1 0
  exact ⟨h.1, (h.2.2.2.1 (by norm_num) 1).2, h.2.2.2.2.2 (1 / 2) (by norm_num)⟩

theorem moves_no_drag (moves : List (ℚ × ℚ)) (s : AppState) (h : s.isDragging = false) :
    applyMoves moves s = s := by
  induction moves generalizing s with
  | nil => rfl
  | cons mv rest ih =>
    obtain ⟨cx, cy⟩ := mv
    have hmv : onMouseMove cx cy s = s := by
      unfold onMouseMove
      simp [h]
    show applyMoves rest (onMouseMove cx cy s) = s
    rw [hmv]
    exact ih s h

/-- C8: a pointer-down while no model is held, or at a time at least 1000 ms
after the last sighting, does not start a drag, and no pointer move of that
gesture (nor its terminating pointer-up) changes the rotation state. -/
theorem drag_gesture_gated (now : ℤ) (x0 y0 : ℚ) (moves : List (ℚ × ℚ)) (s : AppState)
    (hnd : s.isDragging = false)
    (hgate : s.model = none ∨ QR_TIMEOUT ≤ now - s.lastQRTimestamp) :
    (onMouseDown now x0 y0 s).isDragging = false
    ∧ applyMoves moves (onMouseDown now x0 y0 s) = s
    ∧ (onMouseUp (applyMoves moves (onMouseDown now x0 y0 s))).targetRotation
        = s.targetRotation
    ∧ (onMouseUp (applyMoves moves (onMouseDown now x0 y0 s))).currentRotation
        = s.currentRotation := by
  have hdown : onMouseDown now x0 y0 s = s := by
    unfold onMouseDown
    rcases hgate with h | h
    · simp [h]
    · rw [if_neg]
      simp only [Bool.and_eq_true, decide_eq_true_eq, not_and]
      intro _ h2
      unfold QR_TIMEOUT at h h2
      omega
  refine ⟨?_, ?_, ?_, ?_⟩
  · rw [hdown]
    exact hnd
  · rw [hdown]
    exact moves_no_drag moves s hnd
  · rw [hdown, moves_no_drag moves s hnd]
    rfl
  · rw [hdown, moves_no_drag moves s hnd]
    rfl

/-- Witness for C8: a pointer-down 5000 ms after the last sighting, followed
by a move, leaves the state (and hence the rotation) unchanged. -/
theorem drag_gesture_gated_witness :
    (onMouseDown 5000 7 8 exampleState).isDragging = false
    ∧ applyMoves [(3, 4)] (onMouseDown 5000 7 8 exampleState) = exampleState := by
  have h := drag_gesture_gated 5000 7 8 [(3, 4)] exampleState rfl (Or.inr (by decide))
  exact ⟨h.1, h.2.1⟩

/-- C9: the load-completion normalization leaves the scale untouched when the
largest bounding dimension is zero (no division by zero is attempted), and
makes the largest bounding dimension exactly 4 whenever it is positive. -/
theorem normalize_guard_spec (size sc : ℚ × ℚ × ℚ) :
    (maxDim3 size = 0 →
      gltfNormalize size sc = sc ∧ sizeAfterNormalize size = size)
    ∧ (0 < maxDim3 size → maxDim3 (sizeAfterNormalize size) = 4) := by
  constructor
  · intro h0
    unfold gltfNormalize sizeAfterNormalize
    rw [h0]
    norm_num
  · intro hpos
    have hne : maxDim3 size ≠ 0 := ne_of_gt hpos
    have hc : (0 : ℚ) ≤ 4 / maxDim3 size := le_of_lt (div_pos (by norm_num) hpos)
    have hsz : sizeAfterNormalize size
        = (size.1 * (4 / maxDim3 size), size.2.1 * (4 / maxDim3 size),
           size.2.2 * (4 / maxDim3 size)) := by
      unfold sizeAfterNormalize
      rw [if_pos hpos]
    rw [hsz]
    show max (size.1 * (4 / maxDim3 size))
      (max (size.2.1 * (4 / maxDim3 size)) (size.2.2 * (4 / maxDim3 size))) = 4
    rw [← max_mul_of_nonneg size.2.1 size.2.2 hc,
      ← max_mul_of_nonneg size.1 (max size.2.1 size.2.2) hc]
    show maxDim3 size * (4 / maxDim3 size) = 4
    field_simp

/-- Witness for C9: a degenerate zero-size box leaves the scale unchanged; a
box with largest dimension 8 is scaled to largest dimension 4. -/
theorem normalize_guard_spec_witness :
    gltfNormalize (0, 0, 0) (2, 2, 2) = (2, 2, 2)
    ∧ maxDim3 (sizeAfterNormalize (8, 2, 1)) = 4 := by
  have h0 := normalize_guard_spec (0, 0, 0) (2, 2, 2)
  have h1 := normalize_guard_spec (8, 2, 1) (1, 1, 1)
  exact ⟨(h0.1 (by norm_num [maxDim3])).1, h1.2 (by norm_num [maxDim3])⟩

/-- C10: the retained observation is never cleared once set — the frame tick
preserves it exactly (on tracking loss the rotation state is preserved too),
a detection carrying fewer than 3 points (or none) preserves it, every
detection keeps it present, the load callback does not touch it, and placement
of a held model reads the retained observation and attaches the model — so a
freshly loaded model whose new episode has produced no sufficient geometry yet
is placed and first attached using the previous episode's last observation. -/
theorem observation_retained_spec (v : String → Bool) (now2 : ℤ) (vw vh iw ih : ℚ)
    (d : String) (s : AppState) :
    (∀ nz : ℤ, (animate nz vw vh iw ih s).lastQRLocation = s.lastQRLocation)
    ∧ (∀ nz : ℤ, qrIsVisible nz s.lastQRTimestamp = false →
        (animate nz vw vh iw ih s).targetRotation = s.targetRotation
        ∧ (animate nz vw vh iw ih s).currentRotation = s.currentRotation)
    ∧ (∀ pts, pts.length < 3 →
        (onDetection v now2 d (some pts) s).lastQRLocation = s.lastQRLocation)
    ∧ (onDetection v now2 d none s).lastQRLocation = s.lastQRLocation
    ∧ (∀ p, s.lastQRLocation.isSome = true →
        (onDetection v now2 d p s).lastQRLocation.isSome = true)
    ∧ (∀ c sz, (onLoadSuccess c sz s).lastQRLocation = s.lastQRLocation)
    ∧ (∀ m loc, s.model = some m → s.lastQRLocation = some loc →
        (updateModelPosition vw vh iw ih s).model = some { m with
          position := (((loc.x / vw) * 2 - 1) * 3 * (iw / ih),
                       -((loc.y / vh) * 2 - 1) * 3, -3)
          scale := ((min loc.width loc.height / vw) * 10,
                    (min loc.width loc.height / vw) * 10,
                    (min loc.width loc.height / vw) * 10) }
        ∧ (updateModelPosition vw vh iw ih s).sceneHasModel = true) := by
  refine ⟨?_, ?_, ?_, ?_, ?_, ?_, ?_⟩
  · intro nz
    exact (animate_fields nz vw vh iw ih s).2.1
  · intro nz hv
    unfold animate
    rcases hm : s.model with _ | m <;> simp [hv, hm]
  · intro pts hlen
    rw [(onDetection_fields v now2 d (some pts) s).2.1]
    simp only [processQRPoints]
    rw [if_neg (by omega)]
  · rw [(onDetection_fields v now2 d none s).2.1]
    rfl
  · intro p hs
    rw [(onDetection_fields v now2 d p s).2.1]
    match p with
    | none => exact hs
    | some pts =>
      simp only [processQRPoints]
      split
      · rfl
      · exact hs
  · intro c sz
    rfl
  · intro m loc hm hl
    unfold updateModelPosition
    rw [hm, hl]
    exact ⟨rfl, rfl⟩

/-- Witness for C10: after tracking loss at 2000 ms, the observation retained
in `exampleState` survives the tick and a subsequent 0-point detection. -/
theorem observation_retained_spec_witness :
    (animate 2000 640 480 1 1 exampleState).lastQRLocation = exampleState.lastQRLocation
    ∧ (onDetection (fun _ => true) 3000 "http://m" (some [])
        (animate 2000 640 480 1 1 exampleState)).lastQRLocation
      = exampleState.lastQRLocation := by
  have h := observation_retained_spec (fun _ => true) 3000 640 480 1 1 "http://m" exampleState
  have h2 := observation_retained_spec (fun _ => true) 3000 640 480 1 1 "http://m"
    (animate 2000 640 480 1 1 exampleState)
  exact ⟨h.1 2000, (h2.2.2.1 [] (by decide)).trans (h.1 2000)⟩
